import Mathlib

/-!
Shallow embedding of the CryptoTracker backend: an Express service with four
HTTP handlers (GET /api/coins, POST /api/history, GET /api/history/:coinId,
GET /api/health) over a Mongo collection of history documents.

Modelling conventions:
* The persisted collection is a `List HistoryRecord`; an insert appends.
* JSON numbers are `Int`, timestamps are `Nat`, identifiers are `String`.
* The upstream CoinGecko call is a parameter `Except String (List Coin)`:
  `ok` carries the decoded list, `error` carries the thrown message.
* A possible per-document write failure of `History.create` is injected by a
  parameter `failAt : Nat → Option String` giving the thrown message, if any,
  for the i-th write of the batch.
* Mongo query semantics used by the handlers: `find` filters by equality on
  `coinId`; `sort` on timestamp descending; `limit n` returns all documents
  when `n = 0` and at most `|n|` documents otherwise; `select` is an
  inclusion projection: it returns the named paths and, by default, the
  document identifier `_id` as well.  Ordering, count and status claims are
  settled over items restricted to the named paths (`HistoryItem`); the
  serialized item as actually returned, `_id` included, is modelled by
  `StoredDoc`, `projectDoc` and `getHistoryHandlerFull`.
-/

namespace CryptoTracker

/-- An upstream coin record, as decoded from the CoinGecko
`/coins/markets` response.  Only the fields the server reads are modelled. -/
structure Coin where
  id : String
  name : String
  symbol : String
  current_price : Int
  market_cap : Int
  price_change_percentage_24h : Int
  last_updated : String
  deriving DecidableEq

/-- A persisted history document (`src/models/History.js`). -/
structure HistoryRecord where
  coinId : String
  name : String
  symbol : String
  price : Int
  marketCap : Int
  change24h : Int
  timestamp : Nat
  deriving DecidableEq

/-- The public shape GET /api/coins maps each upstream coin onto. -/
structure FormattedCoin where
  id : String
  name : String
  symbol : String
  current_price : Int
  market_cap : Int
  price_change_percentage_24h : Int
  last_updated : String
  deriving DecidableEq

/-- The error envelope `\x7b error, details \x7d` used by the 500 responses of
GET /api/coins and GET /api/history/:coinId. -/
structure ErrBody where
  error : String
  details : String
  deriving DecidableEq

/-- Response of GET /api/coins. -/
inductive CoinsResponse where
  | s200 (coins : List FormattedCoin)
  | s500 (body : ErrBody)
  deriving DecidableEq

/-- Per-coin mapping of GET /api/coins (lines 39-47 of the server file). -/
def formatCoin (c : Coin) : FormattedCoin :=
  { id := c.id
    name := c.name
    symbol := c.symbol
    current_price := c.current_price
    market_cap := c.market_cap
    price_change_percentage_24h := c.price_change_percentage_24h
    last_updated := c.last_updated }

/-- Handler of GET /api/coins.  The store is threaded through unchanged to
state frame conditions; the source handler never references the History
model. -/
def getCoinsHandler (upstream : Except String (List Coin))
    (store : List HistoryRecord) : CoinsResponse × List HistoryRecord :=
  match upstream with
  | .ok coins => (.s200 (coins.map formatCoin), store)
  | .error msg =>
    (.s500 ⟨"Failed to fetch coins data from CoinGecko", msg⟩, store)

/-- The document `History.create` builds from one upstream coin and the
batch timestamp (lines 76-84 of the server file). -/
def toRecord (ts : Nat) (c : Coin) : HistoryRecord :=
  { coinId := c.id
    name := c.name
    symbol := c.symbol
    price := c.current_price
    marketCap := c.market_cap
    change24h := c.price_change_percentage_24h
    timestamp := ts }

/-- The 201 body of POST /api/history. -/
structure PostOkBody where
  success : Bool
  message : String
  recordsCount : Nat
  timestamp : Nat
  deriving DecidableEq

/-- The 500 body of POST /api/history; it carries no record count. -/
structure PostErrBody where
  success : Bool
  error : String
  details : String
  deriving DecidableEq

/-- Response of POST /api/history. -/
inductive PostResponse where
  | s201 (body : PostOkBody)
  | s500 (body : PostErrBody)
  deriving DecidableEq

/-- The sequential `for (const coin of coins)` write loop of
POST /api/history.  Arguments: the shared timestamp, the injected failure
map, the remaining coins, the index of the next write, the store so far.
Returns the store after the loop stops, the number of documents saved, and
the thrown message if a write failed.  A failed write aborts the remaining
writes and keeps the documents already written. -/
def writeLoop (ts : Nat) (failAt : Nat → Option String) :
    List Coin → Nat → List HistoryRecord →
    List HistoryRecord × Nat × Option String
  | [], _, store => (store, 0, none)
  | c :: cs, i, store =>
    match failAt i with
    | some msg => (store, 0, some msg)
    | none =>
      let rest := writeLoop ts failAt cs (i + 1) (store ++ [toRecord ts c])
      (rest.1, rest.2.1 + 1, rest.2.2)

/-- Handler of POST /api/history: fetch the upstream list, take one
timestamp for the whole batch, write one document per coin sequentially;
201 with the saved count and the timestamp on success, 500 with the thrown
message on any failure (upstream or write). -/
def postHistoryHandler (upstream : Except String (List Coin)) (ts : Nat)
    (failAt : Nat → Option String) (store : List HistoryRecord) :
    PostResponse × List HistoryRecord :=
  match upstream with
  | .error msg =>
    (.s500 ⟨false, "Failed to store history snapshot", msg⟩, store)
  | .ok coins =>
    match writeLoop ts failAt coins 0 store with
    | (store2, _, some msg) =>
      (.s500 ⟨false, "Failed to store history snapshot", msg⟩, store2)
    | (store2, n, none) =>
      (.s201 ⟨true, "Snapshot stored successfully", n, ts⟩, store2)

/-- One item of the data array of GET /api/history/:coinId, restricted to
the three schema paths named in `select("price timestamp change24h")`.
This restriction ignores the document identifier `_id` that a Mongoose
inclusion projection also returns by default; the serialized item in full
is `FullHistoryItem` below.  The restricted shape is adequate for claims
about status, ordering and counts, which `_id` does not affect. -/
structure HistoryItem where
  price : Int
  timestamp : Nat
  change24h : Int
  deriving DecidableEq

/-- Projection onto the three schema paths named in
`select("price timestamp change24h")`; see `projectDoc` for the projection
as serialized, `_id` included. -/
def projectRecord (r : HistoryRecord) : HistoryItem :=
  ⟨r.price, r.timestamp, r.change24h⟩

/-- Order used by `sort(\x7b timestamp: -1 \x7d)`: `a` before `b` when the
timestamp of `a` is at least that of `b` (newest first). -/
def tsGe (a b : HistoryRecord) : Prop :=
  b.timestamp ≤ a.timestamp

instance : DecidableRel tsGe :=
  fun a b => Nat.decLe b.timestamp a.timestamp

instance : IsTotal HistoryRecord tsGe :=
  ⟨fun a b => Nat.le_total b.timestamp a.timestamp⟩

instance : IsTrans HistoryRecord tsGe :=
  ⟨fun _ _ _ h1 h2 => Nat.le_trans h2 h1⟩

/-- The timestamp-descending sort of the query chain. -/
def sortTsDesc (l : List HistoryRecord) : List HistoryRecord :=
  List.insertionSort tsGe l

/-- Mongo cursor `limit(n)`: `0` imposes no bound, a nonzero `n` returns at
most `|n|` documents. -/
def mongoLimit (n : Int) (xs : List α) : List α :=
  if n = 0 then xs else xs.take n.natAbs

/-- Effective parsed limit: `parseInt` of the query parameter when present,
the default 24 otherwise (`const \x7b limit = 24 \x7d = req.query`). -/
def effLimit : Option Int → Int
  | none => 24
  | some n => n

/-- The 200 body of GET /api/history/:coinId. -/
structure Hist200 where
  coinId : String
  recordsCount : Nat
  data : List HistoryItem
  deriving DecidableEq

/-- The 404 body of GET /api/history/:coinId. -/
structure Hist404 where
  error : String
  message : String
  coinId : String
  deriving DecidableEq

/-- Response of GET /api/history/:coinId. -/
inductive HistResponse where
  | s200 (body : Hist200)
  | s404 (body : Hist404)
  deriving DecidableEq

/-- Handler of GET /api/history/:coinId: query the documents of the coin,
newest first, bounded by the parsed limit, projected onto three paths; 404
when nothing matched, otherwise 200 with the list reversed to oldest
first. -/
def getHistoryHandler (coinId : String) (limitQ : Option Int)
    (store : List HistoryRecord) : HistResponse :=
  let lim := effLimit limitQ
  let history :=
    (mongoLimit lim (sortTsDesc (store.filter
      (fun r => r.coinId == coinId)))).map projectRecord
  if history.length = 0 then
    .s404 ⟨"No historical data found",
      "No history found for " ++ coinId ++ ". Run POST /api/history first.",
      coinId⟩
  else
    .s200 ⟨coinId, history.reverse.length, history.reverse⟩

/-- A persisted document as the store actually holds it: the schema record
together with the ObjectId field `_id` (modelled as `mongoId : Nat`) that
Mongo assigns to every inserted document. -/
structure StoredDoc where
  mongoId : Nat
  doc : HistoryRecord
  deriving DecidableEq

/-- One item of the 200 data array as Mongoose actually serializes it: the
inclusion projection `select("price timestamp change24h")` returns the
three named paths and, by default, the document identifier `_id` as well —
four fields in all. -/
structure FullHistoryItem where
  mongoId : Nat
  price : Int
  timestamp : Nat
  change24h : Int
  deriving DecidableEq

/-- The projection applied by `select("price timestamp change24h")` on a
persisted document, `_id` included by default. -/
def projectDoc (d : StoredDoc) : FullHistoryItem :=
  ⟨d.mongoId, d.doc.price, d.doc.timestamp, d.doc.change24h⟩

/-- The sort order of `sort(\x7b timestamp: -1 \x7d)` on persisted
documents. -/
def tsGeDoc (a b : StoredDoc) : Prop :=
  b.doc.timestamp ≤ a.doc.timestamp

instance : DecidableRel tsGeDoc :=
  fun a b => Nat.decLe b.doc.timestamp a.doc.timestamp

/-- The 200 body of GET /api/history/:coinId with the data items as
serialized in full. -/
structure FullHist200 where
  coinId : String
  recordsCount : Nat
  data : List FullHistoryItem
  deriving DecidableEq

/-- Response of GET /api/history/:coinId with the data items as serialized
in full. -/
inductive FullHistResponse where
  | s200 (body : FullHist200)
  | s404 (body : Hist404)
  deriving DecidableEq

/-- Handler of GET /api/history/:coinId over persisted documents, with the
data items as Mongoose serializes them: the same query pipeline as
`getHistoryHandler`, the projection keeping the default `_id` alongside
the three selected paths. -/
def getHistoryHandlerFull (coinId : String) (limitQ : Option Int)
    (store : List StoredDoc) : FullHistResponse :=
  let lim := effLimit limitQ
  let history :=
    (mongoLimit lim (List.insertionSort tsGeDoc (store.filter
      (fun d => d.doc.coinId == coinId)))).map projectDoc
  if history.length = 0 then
    .s404 ⟨"No historical data found",
      "No history found for " ++ coinId ++ ". Run POST /api/history first.",
      coinId⟩
  else
    .s200 ⟨coinId, history.reverse.length, history.reverse⟩

/-- The body of GET /api/health. -/
structure HealthBody where
  status : String
  timestamp : String
  database : String
  endpoints : List (String × String)
  deriving DecidableEq

/-- The static endpoint description of the health body. -/
def healthEndpoints : List (String × String) :=
  [("GET /api/coins", "Fetch live data from CoinGecko"),
   ("POST /api/history", "Store snapshot in database"),
   ("GET /api/history/:coinId", "Get historical data for chart")]

/-- Handler of GET /api/health.  `readyState` is the synchronously read
`mongoose.connection.readyState` (1 means connected); `now` stands for the
serialized current time.  The pair is the HTTP status and the body. -/
def healthHandler (readyState : Nat) (now : String) : Nat × HealthBody :=
  (200,
   ⟨"OK", now,
    if readyState = 1 then "Connected" else "Disconnected",
    healthEndpoints⟩)

/-! ## Sample data used by witnesses and counterexamples -/

/-- A sample upstream coin. -/
def coinA : Coin :=
  ⟨"bitcoin", "Bitcoin", "btc", 65000, 1280, 2, "2024-01-01"⟩

/-- A second sample upstream coin. -/
def coinB : Coin :=
  ⟨"ethereum", "Ethereum", "eth", 3500, 420, -1, "2024-01-01"⟩

/-- A sample stored document for coin `"bitcoin"` at timestamp 3. -/
def recT3 : HistoryRecord :=
  ⟨"bitcoin", "Bitcoin", "btc", 64000, 1270, 1, 3⟩

/-- A sample stored document for coin `"bitcoin"` at timestamp 5. -/
def recT5 : HistoryRecord :=
  ⟨"bitcoin", "Bitcoin", "btc", 65000, 1280, 2, 5⟩

/-! ## Helper lemmas -/

/-- When no write up to the length of the batch fails, the loop appends one
document per coin and reports the batch length. -/
theorem writeLoop_ok (ts : Nat) (failAt : Nat → Option String) :
    ∀ (cs : List Coin) (i : Nat) (store : List HistoryRecord),
      (∀ j, j < cs.length → failAt (i + j) = none) →
      writeLoop ts failAt cs i store =
        (store ++ cs.map (toRecord ts), cs.length, none)
  | [], _, store, _ => by simp [writeLoop]
  | c :: cs, i, store, h => by
    have h0 : failAt i = none := by
      have := h 0 (Nat.succ_pos _)
      simpa using this
    have ih := writeLoop_ok ts failAt cs (i + 1) (store ++ [toRecord ts c])
      (fun j hj => by
        have := h (j + 1) (Nat.succ_lt_succ hj)
        simpa [Nat.add_assoc, Nat.add_comm 1 j] using this)
    simp [writeLoop, h0, ih, List.append_assoc]

/-- When the k-th write is the first to fail, the loop stops there: the k
documents already written stay in the store, and the thrown message is
surfaced. -/
theorem writeLoop_fail (ts : Nat) (failAt : Nat → Option String) (msg : String) :
    ∀ (k : Nat) (cs : List Coin) (i : Nat) (store : List HistoryRecord),
      failAt (i + k) = some msg →
      (∀ j, j < k → failAt (i + j) = none) →
      k < cs.length →
      (writeLoop ts failAt cs i store).1 =
          store ++ (cs.take k).map (toRecord ts) ∧
      (writeLoop ts failAt cs i store).2.2 = some msg
  | 0, cs, i, store, hk, _, hlen => by
    cases cs with
    | nil => simp at hlen
    | cons c cs =>
      have hi : failAt i = some msg := by simpa using hk
      simp [writeLoop, hi]
  | k + 1, cs, i, store, hk, hprev, hlen => by
    cases cs with
    | nil => simp at hlen
    | cons c cs =>
      have h0 : failAt i = none := by
        have := hprev 0 (Nat.succ_pos _)
        simpa using this
      have ih := writeLoop_fail ts failAt msg k cs (i + 1)
        (store ++ [toRecord ts c])
        (by
          have : i + 1 + k = i + (k + 1) := by omega
          rw [this]; exact hk)
        (fun j hj => by
          have := hprev (j + 1) (Nat.succ_lt_succ hj)
          have hidx : i + 1 + j = i + (j + 1) := by omega
          rw [hidx]; exact this)
        (by simpa using Nat.lt_of_succ_lt_succ (Nat.succ_lt_succ hlen))
      refine ⟨?_, ?_⟩
      · simp only [writeLoop, h0]
        rw [ih.1]
        simp [List.append_assoc]
      · simp only [writeLoop, h0]
        exact ih.2

/-- `mongoLimit` of the empty list is empty. -/
theorem mongoLimit_nil (n : Int) : mongoLimit n ([] : List α) = [] := by
  unfold mongoLimit
  split <;> simp

/-- Membership in `mongoLimit n xs` implies membership in `xs`. -/
theorem mongoLimit_subset {n : Int} {xs : List α} {a : α}
    (h : a ∈ mongoLimit n xs) : a ∈ xs := by
  unfold mongoLimit at h
  split at h
  · exact h
  · exact List.take_subset _ _ h

/-- With a nonzero limit, `mongoLimit` returns at most `|n|` elements. -/
theorem mongoLimit_length_le {n : Int} (hn : n ≠ 0) (xs : List α) :
    (mongoLimit n xs).length ≤ n.natAbs := by
  unfold mongoLimit
  split
  · exact absurd (by assumption) hn
  · exact List.length_take_le n.natAbs xs

/-- The query pipeline of a 200 GetHistory response is sorted newest
first. -/
theorem pipeline_sorted (n : Int) (l : List HistoryRecord) :
    List.Pairwise tsGe (mongoLimit n (sortTsDesc l)) := by
  have hs : List.Pairwise tsGe (sortTsDesc l) :=
    List.sorted_insertionSort tsGe l
  unfold mongoLimit
  split
  · exact hs
  · exact hs.sublist (List.take_sublist _ _)

/-- Shape of every 200 GetHistory response: the body is built from the
query pipeline, the matching documents being nonempty. -/
theorem getHistory_s200_shape (coinId : String) (limitQ : Option Int)
    (store : List HistoryRecord) (body : Hist200)
    (h : getHistoryHandler coinId limitQ store = .s200 body) :
    body =
      ⟨coinId,
       ((mongoLimit (effLimit limitQ) (sortTsDesc (store.filter
         (fun r => r.coinId == coinId)))).map projectRecord).reverse.length,
       ((mongoLimit (effLimit limitQ) (sortTsDesc (store.filter
         (fun r => r.coinId == coinId)))).map projectRecord).reverse⟩ ∧
    ((mongoLimit (effLimit limitQ) (sortTsDesc (store.filter
      (fun r => r.coinId == coinId)))).map projectRecord).length ≠ 0 := by
  unfold getHistoryHandler at h
  dsimp only at h
  split at h
  · exact absurd h (by simp)
  · refine ⟨?_, by assumption⟩
    exact (HistResponse.s200.inj h).symm

/-- Shape of every 200 response of the full-serialization handler: again
the body is built from the query pipeline. -/
theorem getHistoryFull_s200_shape (coinId : String) (limitQ : Option Int)
    (store : List StoredDoc) (body : FullHist200)
    (h : getHistoryHandlerFull coinId limitQ store = .s200 body) :
    body =
      ⟨coinId,
       ((mongoLimit (effLimit limitQ) (List.insertionSort tsGeDoc
         (store.filter (fun d => d.doc.coinId == coinId)))).map
           projectDoc).reverse.length,
       ((mongoLimit (effLimit limitQ) (List.insertionSort tsGeDoc
         (store.filter (fun d => d.doc.coinId == coinId)))).map
           projectDoc).reverse⟩ := by
  unfold getHistoryHandlerFull at h
  dsimp only at h
  split at h
  · exact absurd h (by simp)
  · exact (FullHistResponse.s200.inj h).symm

/-! ## Claim theorems -/

/-- Claim C1: a successful PostHistory request uses the fetched upstream
list and one shared timestamp, appends one document per upstream snapshot,
each carrying that timestamp, and responds 201 with success true, a
recordsCount equal to the number of upstream snapshots, and that same
timestamp. -/
theorem postHistory_success (coins : List Coin) (ts : Nat)
    (failAt : Nat → Option String) (store : List HistoryRecord)
    (h : ∀ j, j < coins.length → failAt j = none) :
    postHistoryHandler (.ok coins) ts failAt store =
      (.s201 ⟨true, "Snapshot stored successfully", coins.length, ts⟩,
       store ++ coins.map (toRecord ts)) ∧
    ∀ r ∈ coins.map (toRecord ts), r.timestamp = ts := by
  have hw := writeLoop_ok ts failAt coins 0 store (fun j hj => by
    simpa using h j hj)
  constructor
  · simp [postHistoryHandler, hw]
  · intro r hr
    rcases List.mem_map.1 hr with ⟨c, _, rfl⟩
    rfl

/-- Witness for C1 at a concrete two-coin batch. -/
theorem postHistory_success_witness :
    postHistoryHandler (.ok [coinA, coinB]) 7 (fun _ => none) [] =
      (.s201 ⟨true, "Snapshot stored successfully", 2, 7⟩,
       [toRecord 7 coinA, toRecord 7 coinB]) :=
  (postHistory_success [coinA, coinB] 7 (fun _ => none) []
    (fun _ _ => rfl)).1

/-- Claim C5: a successful GetCoins request returns one formatted item per
upstream record, in the same order, and the mapping onto the seven public
fields is lossless. -/
theorem getCoins_success (coins : List Coin) (store : List HistoryRecord) :
    getCoinsHandler (.ok coins) store = (.s200 (coins.map formatCoin), store) ∧
    (coins.map formatCoin).length = coins.length ∧
    (∀ i (hi : i < coins.length),
      (coins.map formatCoin).get ⟨i, by simpa using hi⟩ =
        formatCoin (coins.get ⟨i, hi⟩)) ∧
    ∀ c : Coin,
      (formatCoin c).id = c.id ∧
      (formatCoin c).name = c.name ∧
      (formatCoin c).symbol = c.symbol ∧
      (formatCoin c).current_price = c.current_price ∧
      (formatCoin c).market_cap = c.market_cap ∧
      (formatCoin c).price_change_percentage_24h =
        c.price_change_percentage_24h ∧
      (formatCoin c).last_updated = c.last_updated := by
  refine ⟨rfl, by simp, ?_, ?_⟩
  · intro i hi
    simp
  · intro c
    exact ⟨rfl, rfl, rfl, rfl, rfl, rfl, rfl⟩

/-- Witness for C5 at a concrete upstream list. -/
theorem getCoins_success_witness :
    (getCoinsHandler (.ok [coinA, coinB]) [recT3]).1 =
      .s200 [formatCoin coinA, formatCoin coinB] ∧
    ([coinA, coinB].map formatCoin).get ⟨0, by decide⟩ = formatCoin coinA := by
  have h := getCoins_success [coinA, coinB] [recT3]
  refine ⟨?_, h.2.2.1 0 (by decide)⟩
  rw [h.1]
  rfl

/-- Claim C6: when the k-th write of the PostHistory batch is the first to
fail, the handler responds 500 with success false, the fixed error string,
and the thrown message as details; the k documents already written remain
in the store, and the 500 body carries no record count. -/
theorem postHistory_midFailure (coins : List Coin) (ts : Nat) (k : Nat)
    (msg : String) (failAt : Nat → Option String)
    (store : List HistoryRecord)
    (hk : failAt k = some msg)
    (hprev : ∀ j, j < k → failAt j = none)
    (hlen : k < coins.length) :
    postHistoryHandler (.ok coins) ts failAt store =
      (.s500 ⟨false, "Failed to store history snapshot", msg⟩,
       store ++ (coins.take k).map (toRecord ts)) := by
  have hw := writeLoop_fail ts failAt msg k coins 0 store
    (by simpa using hk) (fun j hj => by simpa using hprev j hj) hlen
  obtain ⟨h1, h2⟩ := hw
  rcases hloop : writeLoop ts failAt coins 0 store with ⟨st2, n, e⟩
  rw [hloop] at h1 h2
  dsimp at h1 h2
  subst h1
  subst h2
  simp [postHistoryHandler, hloop]

/-- Witness for C6: the second write of a two-coin batch fails; the first
document stays, the response is the 500 envelope with the thrown message. -/
theorem postHistory_midFailure_witness :
    postHistoryHandler (.ok [coinA, coinB]) 7
      (fun i => if i = 1 then some "boom" else none) [] =
      (.s500 ⟨false, "Failed to store history snapshot", "boom"⟩,
       [toRecord 7 coinA]) :=
  postHistory_midFailure [coinA, coinB] 7 1 "boom"
    (fun i => if i = 1 then some "boom" else none) []
    rfl
    (fun j hj => by
      have hj0 : j = 0 := by omega
      subst hj0
      rfl)
    (by decide)

/-- Claim C9: GetCoins never modifies the history store — on both the 200
and the 500 path the persisted documents are unchanged, and the failure
path returns the error envelope with the underlying message. -/
theorem getCoins_frame (upstream : Except String (List Coin))
    (store : List HistoryRecord) (msg : String) :
    (getCoinsHandler upstream store).2 = store ∧
    getCoinsHandler (.error msg) store =
      (.s500 ⟨"Failed to fetch coins data from CoinGecko", msg⟩, store) := by
  refine ⟨?_, rfl⟩
  cases upstream <;> rfl

/-- Claim C2: the data array of every 200 GetHistory response is ordered
oldest first by timestamp, whatever the insertion order of the stored
documents. -/
theorem getHistory_sorted (coinId : String) (limitQ : Option Int)
    (store : List HistoryRecord) (body : Hist200)
    (h : getHistoryHandler coinId limitQ store = .s200 body) :
    List.Sorted (fun a b : HistoryItem => a.timestamp ≤ b.timestamp)
      body.data := by
  obtain ⟨hbody, -⟩ := getHistory_s200_shape coinId limitQ store body h
  subst hbody
  dsimp
  unfold List.Sorted
  rw [List.pairwise_reverse]
  refine List.pairwise_map.2 ?_
  exact (pipeline_sorted _ _).imp (fun hab => hab)

/-- Witness for C2: a store holding the newer document first still yields
an oldest-first data array. -/
theorem getHistory_sorted_witness :
    List.Sorted (fun a b : HistoryItem => a.timestamp ≤ b.timestamp)
      (Hist200.mk "bitcoin" 2 [⟨64000, 3, 1⟩, ⟨65000, 5, 2⟩]).data :=
  getHistory_sorted "bitcoin" none [recT5, recT3]
    ⟨"bitcoin", 2, [⟨64000, 3, 1⟩, ⟨65000, 5, 2⟩]⟩ (by decide)

/-- Claim C3: GetHistory on a coin with zero stored documents responds 404
with the coinId echoed back, and never 200 with an empty data array. -/
theorem getHistory_notFound (coinId : String) (limitQ : Option Int)
    (store : List HistoryRecord)
    (h : store.filter (fun r => r.coinId == coinId) = []) :
    getHistoryHandler coinId limitQ store =
      .s404 ⟨"No historical data found",
        "No history found for " ++ coinId ++ ". Run POST /api/history first.",
        coinId⟩ ∧
    ∀ body, getHistoryHandler coinId limitQ store ≠ .s200 body := by
  have h404 : getHistoryHandler coinId limitQ store =
      .s404 ⟨"No historical data found",
        "No history found for " ++ coinId ++ ". Run POST /api/history first.",
        coinId⟩ := by
    unfold getHistoryHandler
    rw [h]
    simp [sortTsDesc, mongoLimit_nil]
  exact ⟨h404, fun body => by simp [h404]⟩

/-- Witness for C3 at a coin absent from a nonempty store. -/
theorem getHistory_notFound_witness :
    getHistoryHandler "dogecoin" none [recT3] =
      .s404 ⟨"No historical data found",
        "No history found for " ++ "dogecoin" ++ ". Run POST /api/history first.",
        "dogecoin"⟩ :=
  (getHistory_notFound "dogecoin" none [recT3] (by decide)).1

/-- Counterexample to claim C4 as stated: with the limit query parameter
parsing to 0, a store holding one matching document yields a 200 response
whose data length 1 exceeds the requested limit 0. -/
theorem getHistory_count_cex :
    getHistoryHandler "bitcoin" (some 0) [recT3] =
      .s200 ⟨"bitcoin", 1, [⟨64000, 3, 1⟩]⟩ ∧
    ¬ ((1 : Int) ≤ effLimit (some 0)) :=
  ⟨by decide, by decide⟩

/-- Claim C4, amended: in every 200 GetHistory response, recordsCount
equals the data length; the data length is at most the absolute value of
the parsed limit whenever that limit is nonzero, and in particular at most
the default 24 when the limit query parameter is absent. -/
theorem getHistory_count (coinId : String) (limitQ : Option Int)
    (store : List HistoryRecord) (body : Hist200)
    (h : getHistoryHandler coinId limitQ store = .s200 body) :
    body.recordsCount = body.data.length ∧
    (effLimit limitQ ≠ 0 → body.data.length ≤ (effLimit limitQ).natAbs) ∧
    (limitQ = none → body.data.length ≤ 24) := by
  obtain ⟨hbody, -⟩ := getHistory_s200_shape coinId limitQ store body h
  subst hbody
  refine ⟨rfl, ?_, ?_⟩
  · intro hn
    dsimp
    rw [List.length_reverse, List.length_map]
    exact mongoLimit_length_le hn _
  · intro hq
    subst hq
    dsimp
    rw [List.length_reverse, List.length_map]
    simpa using mongoLimit_length_le (show effLimit none ≠ 0 by decide)
      (sortTsDesc (store.filter (fun r => r.coinId == coinId)))

/-- Witness for the amended C4 at a one-document store with the default
limit. -/
theorem getHistory_count_witness :
    (Hist200.mk "bitcoin" 1 [⟨64000, 3, 1⟩]).recordsCount =
      (Hist200.mk "bitcoin" 1 [⟨64000, 3, 1⟩]).data.length ∧
    (Hist200.mk "bitcoin" 1 [⟨64000, 3, 1⟩]).data.length ≤
      (effLimit none).natAbs :=
  ⟨(getHistory_count "bitcoin" none [recT3]
      ⟨"bitcoin", 1, [⟨64000, 3, 1⟩]⟩ (by decide)).1,
   (getHistory_count "bitcoin" none [recT3]
      ⟨"bitcoin", 1, [⟨64000, 3, 1⟩]⟩ (by decide)).2.1 (by decide)⟩

/-- Counterexample to claim C7 as stated: the serialized data items do not
consist of the three selected fields alone.  Two one-document stores whose
documents agree on every schema field — in particular on price, timestamp
and change24h — but differ in the Mongo-assigned `_id` yield different 200
bodies, and the concrete body exhibits the fourth field `_id` = 1 in its
single item. -/
theorem getHistory_projection_cex :
    getHistoryHandlerFull "bitcoin" none [⟨1, recT3⟩] ≠
      getHistoryHandlerFull "bitcoin" none [⟨2, recT3⟩] ∧
    getHistoryHandlerFull "bitcoin" none [⟨1, recT3⟩] =
      .s200 ⟨"bitcoin", 1, [⟨1, 64000, 3, 1⟩]⟩ ∧
    (FullHistoryItem.mk 1 64000 3 1).mongoId = 1 :=
  ⟨by decide, by decide, rfl⟩

/-- Claim C7, amended: every item in the data array of a successful
GetHistory response is the projection of some stored matching document
onto the three selected fields price, timestamp and change24h together
with the document identifier `_id` that the inclusion projection returns
by default — four fields in all, and no others (the type
`FullHistoryItem` has no further field). -/
theorem getHistory_projection_full (coinId : String) (limitQ : Option Int)
    (store : List StoredDoc) (body : FullHist200)
    (h : getHistoryHandlerFull coinId limitQ store = .s200 body) :
    ∀ item ∈ body.data, ∃ d ∈ store,
      d.doc.coinId = coinId ∧
      item = FullHistoryItem.mk d.mongoId d.doc.price d.doc.timestamp
        d.doc.change24h := by
  have hbody := getHistoryFull_s200_shape coinId limitQ store body h
  subst hbody
  intro item hitem
  dsimp at hitem
  rw [List.mem_reverse] at hitem
  rcases List.mem_map.1 hitem with ⟨d, hd, rfl⟩
  have hd2 : d ∈ List.insertionSort tsGeDoc
      (store.filter (fun d => d.doc.coinId == coinId)) :=
    mongoLimit_subset hd
  have hd3 : d ∈ store.filter (fun d => d.doc.coinId == coinId) :=
    (List.perm_insertionSort tsGeDoc _).mem_iff.1 hd2
  have hd4 := List.mem_filter.1 hd3
  refine ⟨d, hd4.1, ?_, rfl⟩
  simpa using hd4.2

/-- Witness for the amended C7: the single item of a concrete 200 response
is the stored document's `_id` together with its three selected fields. -/
theorem getHistory_projection_full_witness :
    ∃ d ∈ [StoredDoc.mk 1 recT3], d.doc.coinId = "bitcoin" ∧
      FullHistoryItem.mk 1 64000 3 1 =
        FullHistoryItem.mk d.mongoId d.doc.price d.doc.timestamp
          d.doc.change24h :=
  getHistory_projection_full "bitcoin" none [⟨1, recT3⟩]
    ⟨"bitcoin", 1, [⟨1, 64000, 3, 1⟩]⟩ (by decide) ⟨1, 64000, 3, 1⟩
    (by decide)

/-- Claim C8: the health endpoint always responds 200 with status OK, and
its database field reads Connected exactly when the synchronously read
connection state is 1 (connected), Disconnected in every other state. -/
theorem health_ok (readyState : Nat) (now : String) :
    (healthHandler readyState now).1 = 200 ∧
    (healthHandler readyState now).2.status = "OK" ∧
    ((healthHandler readyState now).2.database = "Connected" ↔
      readyState = 1) ∧
    (readyState ≠ 1 →
      (healthHandler readyState now).2.database = "Disconnected") := by
  unfold healthHandler
  by_cases h : readyState = 1 <;> simp [h]

/-- Witness for C8 with the store disconnected (state 0). -/
theorem health_ok_witness :
    (healthHandler 0 "t").1 = 200 ∧
    (healthHandler 0 "t").2.database = "Disconnected" :=
  ⟨(health_ok 0 "t").1, (health_ok 0 "t").2.2.2 (by decide)⟩

/-- Claim C10: when the limit query parameter parses to 0, the limit
clause imposes no bound, so the 200 response holds every stored matching
document — in particular its data length is positive, exceeding the
requested limit 0. -/
theorem getHistory_limitZero (coinId : String) (store : List HistoryRecord)
    (h : store.filter (fun r => r.coinId == coinId) ≠ []) :
    ∃ body, getHistoryHandler coinId (some 0) store = .s200 body ∧
      body.data.length =
        (store.filter (fun r => r.coinId == coinId)).length ∧
      0 < body.data.length := by
  have hlen : ((mongoLimit (effLimit (some 0)) (sortTsDesc (store.filter
      (fun r => r.coinId == coinId)))).map projectRecord).length =
      (store.filter (fun r => r.coinId == coinId)).length := by
    rw [List.length_map]
    show (mongoLimit 0 _).length = _
    unfold mongoLimit
    rw [if_pos rfl]
    exact (List.perm_insertionSort tsGe _).length_eq
  have hne : ((mongoLimit (effLimit (some 0)) (sortTsDesc (store.filter
      (fun r => r.coinId == coinId)))).map projectRecord).length ≠ 0 := by
    rw [hlen]
    simpa using h
  unfold getHistoryHandler
  dsimp only
  rw [if_neg hne]
  refine ⟨_, rfl, ?_, ?_⟩
  · rw [List.length_reverse]
    exact hlen
  · rw [List.length_reverse, hlen]
    exact List.length_pos.2 h

/-- Witness for C10: two stored documents, limit parameter 0, both
returned. -/
theorem getHistory_limitZero_witness :
    [recT5, recT3].filter (fun r => r.coinId == "bitcoin") ≠ [] ∧
    ∃ body,
      getHistoryHandler "bitcoin" (some 0) [recT5, recT3] = .s200 body ∧
      body.data.length =
        ([recT5, recT3].filter (fun r => r.coinId == "bitcoin")).length ∧
      0 < body.data.length :=
  ⟨by decide, getHistory_limitZero "bitcoin" [recT5, recT3] (by decide)⟩

end CryptoTracker
